import Mathlib

/-!
# Verification of the cjio CityJSON data model core (`src/cjio/model.py`)

A shallow embedding of the module `cjio/model.py`, covering:

* `CityModel.get_cityobjects` — type-filtered iteration over city objects;
* `SemanticSurface._index_surface_boundaries` — the semantics-values indexer;
* `Geometry._vertex_mapper`, `Geometry._dereference_boundary` — replacement of
  vertex indices by vertex coordinates, dispatching on the geometry kind;
* `Geometry._get_surface_boundaries` — surface resolution by positional address;
* `Geometry._dereference_surfaces` and the `Geometry`/`SemanticSurface`
  constructors.

Python values are modelled by small inductive types; Python exceptions by an
`Except` error monad with an explicit error type.  Vertex coordinates are kept
opaque (a type parameter `α`): the code under verification never inspects them,
it only moves them around.
-/

set_option autoImplicit false

namespace Cjio

/-- Python exceptions that the modelled code can raise.
`indexError` models `IndexError` from list subscripting (whose message is the
constant "list index out of range": it carries no data).  `typeError` models
`TypeError` with its message.  `unboundLocalError` models the Python
`UnboundLocalError` for a local variable read before assignment. -/
inductive PyErr where
  | indexError : PyErr
  | typeError : String → PyErr
  | unboundLocalError : String → PyErr
deriving DecidableEq

/-- A generic JSON-like Python value, used for fields the code stores but never
inspects (semantic-surface attribute values, `children`/`parent` payloads). -/
inductive PyData where
  | str : String → PyData
  | int : Int → PyData
  | list : List PyData → PyData

/-- A raw boundary value: a Python value that is either an `int` vertex index
or a list of such values (`geometry.boundaries` nesting is not fixed). -/
inductive BVal where
  | int : Int → BVal
  | list : List BVal → BVal

/-- A dereferenced boundary value: nested lists whose leaves are vertex
coordinates (opaque, of type `α`). -/
inductive DVal (α : Type) where
  | vtx : α → DVal α
  | list : List (DVal α) → DVal α

/-- A `semantics.values` entry: `None`, an integer surface identifier, or a
nested list of such entries. -/
inductive SVal where
  | noneV : SVal
  | id : Int → SVal
  | list : List SVal → SVal

/-- The surface index built by `_index_surface_boundaries`: a Python dict from
surface identifier to the list of addresses, modelled as an association list
in insertion order (Python dicts preserve insertion order). -/
abbrev SDict := List (Int × List (List Nat))

/-- Model of the Python `str.lower()` method (ASCII case folding,
characterwise).  The library function `String.toLower` is extensionally the same but is defined through byte
positions that the kernel cannot reduce, so the characterwise map is used. -/
def pyLower (s : String) : String := String.mk (s.data.map Char.toLower)

/-! ## Python list indexing -/

/-- The effective index Python uses for `l[i]`: negative indices count from the
end. -/
def pyWrap (n : Nat) (i : Int) : Int :=
  if i < 0 then i + n else i

/-- Whether `l[i]` succeeds on a list of length `n` in Python. -/
def goodLeaf (n : Nat) (i : Int) : Bool :=
  decide (0 ≤ pyWrap n i) && decide (pyWrap n i < (n : Int))

/-- In-range check for a non-negative index, the well-formed case of the
CityJSON data model (`boundaries` hold non-negative vertex indices). -/
def inRangeLeaf (n : Nat) (i : Int) : Bool :=
  decide (0 ≤ i) && decide (i < (n : Int))

/-- Python list subscripting `l[i]`: wraps negative indices, raises
`IndexError` when out of range. -/
def pyGet {α : Type} (l : List α) (i : Int) : Except PyErr α :=
  if h : 0 ≤ pyWrap l.length i ∧ pyWrap l.length i < (l.length : Int) then
    .ok (l.get ⟨(pyWrap l.length i).toNat, by omega⟩)
  else
    .error PyErr.indexError

/-- The coordinate leaf at position `idx` of the vertex table, as a `DVal`
(`DVal.list []` is junk returned only for an out-of-range position; every
theorem below excludes that case by hypothesis). -/
def vtxAt {α : Type} (V : List α) (idx : Nat) : DVal α :=
  match V.get? idx with
  | some v => DVal.vtx v
  | none => DVal.list []

/-! ## `Geometry._vertex_mapper` and `Geometry._dereference_boundary` -/

/-- Model of `Geometry._vertex_mapper(boundary, vertices)`:
`list(map(lambda x: vertices[x], boundary))`.  Each element of `boundary` must
be an `int` index (subscripting a list with a list raises `TypeError`). -/
def vertex_mapper {α : Type} (V : List α) : List BVal → Except PyErr (List α)
  | [] => .ok []
  | BVal.int i :: rest =>
    match pyGet V i with
    | .error e => .error e
    | .ok v =>
      match vertex_mapper V rest with
      | .error e => .error e
      | .ok r => .ok (v :: r)
  | BVal.list _ :: _ => .error (PyErr.typeError "list indices must be integers, not list")

/-- The result of `_vertex_mapper`, viewed as a dereferenced-boundary value
(a flat list of coordinate leaves). -/
def vmD {α : Type} (V : List α) (b : List BVal) : Except PyErr (DVal α) :=
  Except.map (fun r => DVal.list (r.map DVal.vtx)) (vertex_mapper V b)

/-- One nesting level of `_dereference_boundary`: iterate over a list whose
elements must each be a list, and apply `f` to each (iterating over an `int`
raises `TypeError`).  Mirrors the source `for x in boundary:` loops, each of
which immediately iterates over `x` again. -/
def derefLevel {α : Type} (f : List BVal → Except PyErr (DVal α)) :
    List BVal → Except PyErr (List (DVal α))
  | [] => .ok []
  | BVal.list l :: rest =>
    match f l with
    | .error e => .error e
    | .ok d =>
      match derefLevel f rest with
      | .error e => .error e
      | .ok r => .ok (d :: r)
  | BVal.int _ :: _ => .error (PyErr.typeError "int object is not iterable")

/-- One surface: `[self._vertex_mapper(b, vertices) for b in surface]`. -/
def surfD {α : Type} (V : List α) (sur : List BVal) : Except PyErr (DVal α) :=
  Except.map DVal.list (derefLevel (vmD V) sur)

/-- One shell of a solid: the depth-2 transform applied per surface. -/
def shellD {α : Type} (V : List α) (shell : List BVal) : Except PyErr (DVal α) :=
  Except.map DVal.list (derefLevel (surfD V) shell)

/-- One solid of a multi-solid: the depth-3 transform applied per shell. -/
def solidD {α : Type} (V : List α) (solid : List BVal) : Except PyErr (DVal α) :=
  Except.map DVal.list (derefLevel (shellD V) solid)

/-- Model of `Geometry._dereference_boundary(btype, boundary, vertices)`.
`if not boundary: return list()` comes first; then the `btype.lower()`
dispatch; an unrecognized type string falls off the end of the `elif` chain
and returns Python `None`, modelled as `Option.none`. -/
def dereference_boundary {α : Type} (btype : String) (boundary : Option (List BVal))
    (V : List α) : Except PyErr (Option (DVal α)) :=
  let bs := boundary.getD []
  if bs.isEmpty then .ok (some (DVal.list []))
  else
    let t := pyLower btype
    if t = "multipoint" then
      Except.map (fun r => some r) (vmD V bs)
    else if t = "multilinestring" then
      Except.map (fun r => some (DVal.list r)) (derefLevel (vmD V) bs)
    else if t = "multisurface" ∨ t = "compositesurface" then
      Except.map (fun r => some (DVal.list r)) (derefLevel (surfD V) bs)
    else if t = "solid" then
      Except.map (fun r => some (DVal.list r)) (derefLevel (shellD V) bs)
    else if t = "multisolid" ∨ t = "compositesolid" then
      Except.map (fun r => some (DVal.list r)) (derefLevel (solidD V) bs)
    else
      .ok none

end Cjio

namespace Cjio

/-! ## `SemanticSurface._index_surface_boundaries` -/

/-- Message of the `TypeError` raised by `_index_surface_boundaries` on a
fourth nesting level. -/
def depthMsg : String := "The values member of semantics is too many levels deep"

/-- One dict update of the indexer:
`if key not in surface_idx.keys(): surface_idx[key] = [a] else: surface_idx[key].append(a)`.
New keys are inserted at the end (Python dict insertion order); an existing
key has the address appended to its list. -/
def dictAppend (d : SDict) (k : Int) (a : List Nat) : SDict :=
  if d.any (fun p => decide (p.1 = k)) then
    d.map (fun p => if p.1 = k then (p.1, p.2 ++ [a]) else p)
  else
    d ++ [(k, [a])]

/-- Dict lookup `d[n]` (as an option), respecting insertion order. -/
def dictLookup : SDict → Int → Option (List (List Nat))
  | [], _ => none
  | p :: rest, n => if p.1 = n then some p.2 else dictLookup rest n

/-- Fold a list of (address, identifier) occurrences into a dict. -/
def dictInsertAll (d : SDict) (ps : List (List Nat × Int)) : SDict :=
  ps.foldl (fun acc p => dictAppend acc p.2 p.1) d

/-- The innermost loop of `_index_surface_boundaries`
(`for k, kdx in enumerate(jdx)`): a list at this level raises the depth
`TypeError`; `None` is skipped; an identifier records address `[i, j, k]`. -/
def indexK (i j : Nat) : Nat → List SVal → SDict → Except PyErr SDict
  | _, [], d => .ok d
  | _, SVal.list _ :: _, _ => .error (PyErr.typeError depthMsg)
  | k, SVal.noneV :: rest, d => indexK i j (k + 1) rest d
  | k, SVal.id n :: rest, d => indexK i j (k + 1) rest (dictAppend d n [i, j, k])

/-- The middle loop (`for j, jdx in enumerate(idx)`): `None` is skipped, a
list descends into the innermost loop, an identifier records `[i, j]`. -/
def indexJ (i : Nat) : Nat → List SVal → SDict → Except PyErr SDict
  | _, [], d => .ok d
  | j, SVal.noneV :: rest, d => indexJ i (j + 1) rest d
  | j, SVal.list l :: rest, d =>
    match indexK i j 0 l d with
    | .error e => .error e
    | .ok d2 => indexJ i (j + 1) rest d2
  | j, SVal.id n :: rest, d => indexJ i (j + 1) rest (dictAppend d n [i, j])

/-- The outer loop (`for i, idx in enumerate(values)`). -/
def indexI : Nat → List SVal → SDict → Except PyErr SDict
  | _, [], d => .ok d
  | i, SVal.noneV :: rest, d => indexI (i + 1) rest d
  | i, SVal.list l :: rest, d =>
    match indexJ i 0 l d with
    | .error e => .error e
    | .ok d2 => indexI (i + 1) rest d2
  | i, SVal.id n :: rest, d => indexI (i + 1) rest (dictAppend d n [i])

/-- Model of `SemanticSurface._index_surface_boundaries(values)`:
`if not values or len(values) == 0: return {}`, else the three nested
enumeration loops. -/
def index_surface_boundaries (values : Option (List SVal)) : Except PyErr SDict :=
  match values with
  | none => .ok []
  | some [] => .ok []
  | some vs => indexI 0 vs []

/-! ## `SemanticSurface` and `Geometry._dereference_surfaces` -/

/-- The `SemanticSurface` class: `surface_idx` is the index the property
setter computes from the `values` constructor argument. -/
structure SemanticSurface where
  type : PyData
  children : Option PyData
  parent : Option PyData
  attributes : List (String × PyData)
  surface_idx : SDict

/-- Model of `SemanticSurface.__init__(type, values, children, parent, attributes)`:
assigning `self.surface_idx = values` runs the property setter, which stores
`_index_surface_boundaries(values)` (and can raise the depth `TypeError`). -/
def SemanticSurface.make (type : PyData) (values : Option (List SVal))
    (children parent : Option PyData) (attributes : List (String × PyData)) :
    Except PyErr SemanticSurface :=
  match index_surface_boundaries values with
  | .error e => .error e
  | .ok idx => .ok ⟨type, children, parent, attributes, idx⟩

/-- A `geometry.semantics` object: its `values` array and its `surfaces`
array; each surface is a JSON object, modelled as its ordered key/value
pairs. -/
structure SemObj where
  values : Option (List SVal)
  surfaces : List (List (String × PyData))

/-- Python truthiness of the `values` member, as tested by
`_dereference_surfaces` before it enters the extraction loop. -/
def pyFalsyValues : Option (List SVal) → Bool
  | none => true
  | some l => l.isEmpty

/-- The local variables of one iteration of the `_dereference_surfaces` loop:
`type`, `children`, `parent` (Python locals, unassigned if the key was never
seen in this or an earlier iteration) and the fresh `attributes` dict. -/
structure ExtractState where
  typeV : Option PyData
  childrenV : Option PyData
  parentV : Option PyData
  attrs : List (String × PyData)

/-- One step of the `for key, value in srf.items()` extraction loop. -/
def extractStep (st : ExtractState) (kv : String × PyData) : ExtractState :=
  if kv.1 = "type" then { st with typeV := some kv.2 }
  else if kv.1 = "children" then { st with childrenV := some kv.2 }
  else if kv.1 = "parent" then { st with parentV := some kv.2 }
  else { st with attrs := st.attrs ++ [kv] }

/-- Message of the `TypeError` raised when `_dereference_surfaces` calls
`SemanticSurface(type=..., children=..., parent=..., attributes=...)`:
the required positional argument `values` of `SemanticSurface.__init__` is
never supplied, so the call itself raises. -/
def missingValuesMsg : String :=
  "SemanticSurface.init missing 1 required positional argument: values"

/-- The `for i, srf in enumerate(...)` loop over the `surfaces` member in
`_dereference_surfaces`.  The keyword arguments `type`, `children`, `parent`
are evaluated left to right (raising `UnboundLocalError` if the corresponding
key has not appeared so far), after which the call to `SemanticSurface`
raises `TypeError`, because the required `values` argument is missing.  The
loop therefore errors on its first iteration and never produces an entry. -/
def surfacesLoop : List (List (String × PyData)) → Nat →
    Option PyData → Option PyData → Option PyData →
    Except PyErr (List (Nat × SemanticSurface))
  | [], _, _, _, _ => .ok []
  | srf :: _, _, tv, cv, pv =>
    let st := srf.foldl extractStep ⟨tv, cv, pv, []⟩
    match st.typeV with
    | none => .error (PyErr.unboundLocalError "type")
    | some _ =>
      match st.childrenV with
      | none => .error (PyErr.unboundLocalError "children")
      | some _ =>
        match st.parentV with
        | none => .error (PyErr.unboundLocalError "parent")
        | some _ => .error (PyErr.typeError missingValuesMsg)

/-- Model of `Geometry._dereference_surfaces(semantics_obj)`:
returns an empty dict when `semantics_obj` is falsy or its `values` member
is falsy, and otherwise runs the surface-extraction loop. -/
def dereference_surfaces (semantics_obj : Option SemObj) :
    Except PyErr (List (Nat × SemanticSurface)) :=
  match semantics_obj with
  | none => .ok []
  | some o =>
    if pyFalsyValues o.values then .ok []
    else surfacesLoop o.surfaces 0 none none none

/-! ## The `Geometry` constructor -/

/-- The `Geometry` object after `__init__`: `boundaries` is the dereferenced
boundary (Python `None` for an unrecognized type string), `surfaces` the dict
built by `_dereference_surfaces`. -/
structure Geometry (α : Type) where
  type : String
  lod : Option Int
  boundaries : Option (DVal α)
  surfaces : List (Nat × SemanticSurface)

/-- Model of `Geometry.__init__(type, lod, boundaries, semantics_obj, vertices)`:
dereferences the boundary, then the semantic surfaces; any exception from
either step propagates and no object is produced. -/
def Geometry.make {α : Type} (gtype : String) (lod : Option Int)
    (boundaries : Option (List BVal)) (semantics_obj : Option SemObj)
    (V : List α) : Except PyErr (Geometry α) :=
  match dereference_boundary gtype boundaries V with
  | .error e => .error e
  | .ok b =>
    match dereference_surfaces semantics_obj with
    | .error e => .error e
    | .ok s => .ok ⟨gtype, lod, b, s⟩

/-! ## `Geometry._get_surface_boundaries` -/

/-- Python subscripting of a dereferenced-boundary node.  The code only ever
indexes nodes that the recorded addresses claim are lists; indexing a
coordinate leaf is modelled as a `TypeError` (coordinates are opaque here). -/
def dvalGetEl {α : Type} : DVal α → Int → Except PyErr (DVal α)
  | DVal.list l, i => pyGet l i
  | DVal.vtx _, _ => .error (PyErr.typeError "vertex coordinates are not indexed by the resolver")

/-- Model of `i[k]` on an address list (the address components are Python ints at
non-negative literal positions 0, 1, 2). -/
def addrComp (i : List Int) (k : Nat) : Except PyErr Int :=
  match i.get? k with
  | some c => .ok c
  | none => .error PyErr.indexError

/-- One element of the `_get_surface_boundaries` comprehension:
`boundaries[i[0]] if len(i) == 1 else boundaries[i[0]][i[1]] if len(i) == 2
else boundaries[i[0]][i[1]][i[2]]`. -/
def gsbElem {α : Type} (b : DVal α) (i : List Int) : Except PyErr (DVal α) :=
  if i.length = 1 then
    match addrComp i 0 with
    | .error e => .error e
    | .ok c0 => dvalGetEl b c0
  else if i.length = 2 then
    match addrComp i 0 with
    | .error e => .error e
    | .ok c0 =>
      match dvalGetEl b c0 with
      | .error e => .error e
      | .ok e0 =>
        match addrComp i 1 with
        | .error e => .error e
        | .ok c1 => dvalGetEl e0 c1
  else
    match addrComp i 0 with
    | .error e => .error e
    | .ok c0 =>
      match dvalGetEl b c0 with
      | .error e => .error e
      | .ok e0 =>
        match addrComp i 1 with
        | .error e => .error e
        | .ok c1 =>
          match dvalGetEl e0 c1 with
          | .error e => .error e
          | .ok e1 =>
            match addrComp i 2 with
            | .error e => .error e
            | .ok c2 => dvalGetEl e1 c2

/-- The `for i in surface_idx` comprehension of `_get_surface_boundaries`. -/
def gsbLoop {α : Type} (b : DVal α) : List (List Int) → Except PyErr (List (DVal α))
  | [] => .ok []
  | i :: rest =>
    match gsbElem b i with
    | .error e => .error e
    | .ok e0 =>
      match gsbLoop b rest with
      | .error e => .error e
      | .ok r => .ok (e0 :: r)

/-- Model of `Geometry._get_surface_boundaries(boundaries, surface_idx)`:
`if not surface_idx or len(surface_idx) == 0: return []`, else the indexing
comprehension. -/
def get_surface_boundaries {α : Type} (b : DVal α) (surface_idx : Option (List (List Int))) :
    Except PyErr (List (DVal α)) :=
  match surface_idx with
  | none => .ok []
  | some idxs =>
    if idxs.isEmpty then .ok []
    else gsbLoop b idxs

/-! ## `CityModel.get_cityobjects` -/

/-- The `CityObject` class (geometry payload is opaque for the collection
layer). -/
structure CityObject where
  id : String
  type : String
  geometry : List PyData

/-- The `CityModel` class. -/
structure CityModel where
  cityobjects : List CityObject

/-- Class attribute `CityModel.type`. -/
def CityModel.typeTag : String := "CityJSON"

/-- Class attribute `CityModel.cityjson_version`. -/
def CityModel.cityjson_version : String := "1.0"

/-- The `type` argument of `get_cityobjects`: Python `None`, a string, or a
non-string value (represented by an int or a list, the isinstance check only
depends on which class the value has). -/
inductive FilterArg where
  | pyNone : FilterArg
  | pyStr : String → FilterArg
  | pyInt : Int → FilterArg
  | pyList : List Int → FilterArg

/-- The mutable state of the generator expression
`(co for co in self.cityobjects if co.type.lower() == target)`: the not yet
consumed suffix of the source list, and the captured `target` string.  A
freshly returned generator holds the whole `cityobjects` list; consuming it
shrinks `remaining`, and an exhausted generator has `remaining = []` and
stays exhausted — the one-shot behaviour of a Python generator. -/
structure GenState where
  remaining : List CityObject
  target : String

/-- One `next()` call on the generator: scan `remaining` for the first
object whose lower-cased type equals `target`; yield it together with the
successor state, or signal exhaustion (`none`, Python StopIteration). -/
def genNextAux (t : String) : List CityObject → Option (CityObject × GenState)
  | [] => none
  | co :: rest =>
    if pyLower co.type = t then some (co, ⟨rest, t⟩) else genNextAux t rest

/-- One `next()` call on a generator state. -/
def genNext (g : GenState) : Option (CityObject × GenState) :=
  genNextAux g.target g.remaining

/-- One full `for` pass over the generator: the list of objects it yields,
paired with the state the generator is left in (exhausted). -/
def genRunAux (t : String) : List CityObject → List CityObject × GenState
  | [] => ([], ⟨[], t⟩)
  | co :: rest =>
    let r := genRunAux t rest
    if pyLower co.type = t then (co :: r.1, r.2) else r

/-- One full `for` pass over a generator state. -/
def genRun (g : GenState) : List CityObject × GenState :=
  genRunAux g.target g.remaining

/-- What `get_cityobjects` hands back on success: for `None` the
`cityobjects` list object itself (a Python list, re-iterable at will); for a
string filter a fresh generator (one-shot). -/
inductive CityObjSeq where
  | pyListSeq : List CityObject → CityObjSeq
  | genSeq : GenState → CityObjSeq

/-- Model of `CityModel.get_cityobjects(type)`: the `cityobjects` list for
`None`; for a string, a fresh generator over `cityobjects` with
`target = type.lower()`; `TypeError` for any other argument. -/
def get_cityobjects (m : CityModel) (t : FilterArg) : Except PyErr CityObjSeq :=
  match t with
  | FilterArg.pyNone => .ok (CityObjSeq.pyListSeq m.cityobjects)
  | FilterArg.pyStr s =>
    let target := pyLower s
    .ok (CityObjSeq.genSeq ⟨m.cityobjects, target⟩)
  | _ => .error (PyErr.typeError "type parameter must be a string")

end Cjio

namespace Cjio

/-! ## Geometry kinds and specification-side definitions -/

/-- The seven recognized geometry kinds. -/
inductive GeometryKind where
  | multiPoint | multiLineString | multiSurface | compositeSurface
  | solid | multiSolid | compositeSolid
deriving DecidableEq

/-- The lower-cased type tag the dispatch in `_dereference_boundary`
compares against. -/
def kindTag : GeometryKind → String
  | .multiPoint => "multipoint"
  | .multiLineString => "multilinestring"
  | .multiSurface => "multisurface"
  | .compositeSurface => "compositesurface"
  | .solid => "solid"
  | .multiSolid => "multisolid"
  | .compositeSolid => "compositesolid"

/-- Extra nesting levels of a raw boundary below its outermost list:
0 for MultiPoint, 1 for MultiLineString, 2 for (Composite/Multi)Surface,
3 for Solid, 4 for MultiSolid/CompositeSolid. -/
def extraDepth : GeometryKind → Nat
  | .multiPoint => 0
  | .multiLineString => 1
  | .multiSurface => 2
  | .compositeSurface => 2
  | .solid => 3
  | .multiSolid => 4
  | .compositeSolid => 4

/-- The fixed nesting depth, per kind, of the whole (raw or dereferenced)
boundary, counting the outermost list. -/
def kindDepth (k : GeometryKind) : Nat := extraDepth k + 1

/-- Predicate `isRawDepth d b`: the raw-boundary value `b` is a well-formed subtree of
depth exactly `d` (an `int` leaf at depth 0, a list of depth-`d` subtrees at
depth `d+1`). -/
def isRawDepth : Nat → BVal → Bool
  | 0, BVal.int _ => true
  | 0, BVal.list _ => false
  | _ + 1, BVal.int _ => false
  | d + 1, BVal.list l => l.all (isRawDepth d)

/-- Predicate `hasBadN n d b`: some leaf of the depth-`d` subtree `b` is an index on
which Python subscripting of a length-`n` list raises `IndexError`. -/
def hasBadN (n : Nat) : Nat → BVal → Bool
  | 0, BVal.int i => !goodLeaf n i
  | 0, BVal.list _ => false
  | _ + 1, BVal.int _ => false
  | d + 1, BVal.list l => l.any (hasBadN n d)

/-- Predicate `leavesInRangeN n d b`: every leaf of the depth-`d` subtree `b` is a
non-negative index below `n` (the well-formed CityJSON case). -/
def leavesInRangeN (n : Nat) : Nat → BVal → Bool
  | 0, BVal.int i => inRangeLeaf n i
  | 0, BVal.list _ => true
  | _ + 1, BVal.int _ => true
  | d + 1, BVal.list l => l.all (leavesInRangeN n d)

/-- The value `_dereference_boundary` computes for a depth-`d` subtree when
no exception occurs: each leaf index is replaced by the vertex at its
Python-wrapped position. -/
def derefCodeN {α : Type} (V : List α) : Nat → BVal → DVal α
  | 0, BVal.int i => vtxAt V (pyWrap V.length i).toNat
  | 0, BVal.list _ => DVal.list []
  | _ + 1, BVal.int _ => DVal.list []
  | d + 1, BVal.list l => DVal.list (l.map (derefCodeN V d))

/-- Modelled from the spec: the dereferenced boundary as §4.1 and testable
property 2 describe it — isomorphic in shape to the raw boundary, with every
leaf index `i` replaced by `vertexTable[i]` (the entry at the original,
non-negative leaf index). -/
def derefSpecN {α : Type} (V : List α) : Nat → BVal → DVal α
  | 0, BVal.int i => vtxAt V i.toNat
  | 0, BVal.list _ => DVal.list []
  | _ + 1, BVal.int _ => DVal.list []
  | d + 1, BVal.list l => DVal.list (l.map (derefSpecN V d))

/-- Predicate `isDerefDepthN d v`: the dereferenced value `v` nests to depth exactly
`d` (a coordinate leaf at depth 0). -/
def isDerefDepthN {α : Type} : Nat → DVal α → Bool
  | 0, DVal.vtx _ => true
  | 0, DVal.list _ => false
  | _ + 1, DVal.vtx _ => false
  | d + 1, DVal.list l => l.all (isDerefDepthN d)

/-- Predicate `svalDepthLe d v`: the semantics value `v` nests at most `d` levels of
lists (`d = 2` for an element of the top-level `values` array means no
fourth nesting level overall). -/
def svalDepthLe : Nat → SVal → Bool
  | _, SVal.noneV => true
  | _, SVal.id _ => true
  | 0, SVal.list _ => false
  | d + 1, SVal.list l => l.all (svalDepthLe d)

/-- Modelled from the spec: traversal of the innermost semantics level in
ascending index order, collecting (address, identifier) occurrences. -/
def occs3From (i j : Nat) : Nat → List SVal → List (List Nat × Int)
  | _, [] => []
  | k, SVal.id n :: rest => ([i, j, k], n) :: occs3From i j (k + 1) rest
  | k, _ :: rest => occs3From i j (k + 1) rest

/-- Modelled from the spec: traversal of the middle semantics level in
ascending index order (outer index first, then inner). -/
def occs2From (i : Nat) : Nat → List SVal → List (List Nat × Int)
  | _, [] => []
  | j, SVal.id n :: rest => ([i, j], n) :: occs2From i (j + 1) rest
  | j, SVal.list l :: rest => occs3From i j 0 l ++ occs2From i (j + 1) rest
  | j, SVal.noneV :: rest => occs2From i (j + 1) rest

/-- Modelled from the spec: traversal of the `values` array in ascending
index order at every level, listing every (address, identifier) occurrence of
a non-null leaf in traversal order; null leaves are skipped. -/
def occs1From : Nat → List SVal → List (List Nat × Int)
  | _, [] => []
  | i, SVal.id n :: rest => ([i], n) :: occs1From (i + 1) rest
  | i, SVal.list l :: rest => occs2From i 0 l ++ occs1From (i + 1) rest
  | i, SVal.noneV :: rest => occs1From (i + 1) rest

/-- The addresses among an occurrence list that carry identifier `n`, in
order. -/
def addrsFor (ps : List (List Nat × Int)) (n : Int) : List (List Nat) :=
  ps.filterMap (fun q => if q.2 = n then some q.1 else none)

/-- Modelled from the spec: the ordered list of addresses at which
identifier `n` occurs as a non-null leaf of `values`. -/
def occAddrs (vs : List SVal) (n : Int) : List (List Nat) :=
  addrsFor (occs1From 0 vs) n

/-- Modelled from the spec (§4.3): resolve one address by indexing
successively into the dereferenced boundary with each component. -/
def resolvePath {α : Type} : DVal α → List Int → Option (DVal α)
  | b, [] => some b
  | b, c :: rest =>
    match dvalGetEl b c with
    | .ok e => resolvePath e rest
    | .error _ => none

/-- Characterization of one nesting level of the dereferencer: on a
well-shaped depth-`d` list it raises `IndexError` exactly when some leaf is
Python-out-of-range, and otherwise maps every leaf to its vertex. -/
def CharP {α : Type} (V : List α) (d : Nat) (f : List BVal → Except PyErr (DVal α)) : Prop :=
  ∀ l : List BVal, l.all (isRawDepth d) = true →
    f l = if l.any (hasBadN V.length d) then Except.error PyErr.indexError
          else Except.ok (DVal.list (l.map (derefCodeN V d)))

end Cjio

namespace Cjio

/-! ## Lemmas: Python list indexing -/

theorem pyGet_good {α : Type} (V : List α) (i : Int) (h : goodLeaf V.length i = true) :
    ∃ v, pyGet V i = Except.ok v ∧ vtxAt V (pyWrap V.length i).toNat = DVal.vtx v := by
  rw [goodLeaf, Bool.and_eq_true, decide_eq_true_eq, decide_eq_true_eq] at h
  obtain ⟨h1, h2⟩ := h
  have ht : (pyWrap V.length i).toNat < V.length := by omega
  refine ⟨V.get ⟨(pyWrap V.length i).toNat, ht⟩, ?_, ?_⟩
  · rw [pyGet, dif_pos ⟨h1, h2⟩]
  · rw [vtxAt, List.get?_eq_get ht]

theorem pyGet_bad {α : Type} (V : List α) (i : Int) (h : goodLeaf V.length i = false) :
    pyGet V i = Except.error PyErr.indexError := by
  rw [pyGet, dif_neg]
  intro hc
  simp [goodLeaf, hc.1, hc.2] at h

/-! ## Lemmas: the surface-index dict -/

theorem dictLookup_map_upd (k : Int) (a : List Nat) (n : Int) (d : SDict) :
    dictLookup (d.map (fun p => if p.1 = k then (p.1, p.2 ++ [a]) else p)) n =
      if n = k then (dictLookup d n).map (fun l => l ++ [a]) else dictLookup d n := by
  induction d with
  | nil => by_cases hnk : n = k <;> simp [dictLookup, hnk]
  | cons p rest ih =>
    by_cases hpk : p.1 = k
    · by_cases hnk : n = k
      · subst hnk
        simp [dictLookup, hpk, ih]
      · have hkn : ¬k = n := fun hc => hnk hc.symm
        simp [dictLookup, hpk, hkn, hnk, ih]
    · by_cases hpn : p.1 = n
      · have hnk : ¬n = k := fun hc => hpk (hpn.trans hc)
        simp [dictLookup, hpk, hpn, hnk]
      · simp [dictLookup, hpk, hpn, ih]

theorem dictLookup_eq_none (d : SDict) (k : Int) (hk : ∀ p ∈ d, p.1 ≠ k) :
    dictLookup d k = none := by
  induction d with
  | nil => rfl
  | cons p rest ih =>
    have h1 : p.1 ≠ k := hk p (List.mem_cons_self p rest)
    simp only [dictLookup, if_neg h1]
    exact ih (fun q hq => hk q (List.mem_cons_of_mem p hq))

theorem dictLookup_append_right (d : SDict) (k : Int) (a : List Nat)
    (hk : ∀ p ∈ d, p.1 ≠ k) (n : Int) :
    dictLookup (d ++ [(k, [a])]) n = if n = k then some [a] else dictLookup d n := by
  induction d with
  | nil =>
    by_cases hnk : n = k
    · simp [dictLookup, hnk]
    · have : k ≠ n := fun hc => hnk hc.symm
      simp [dictLookup, this, hnk]
  | cons p rest ih =>
    have h1 : p.1 ≠ k := hk p (List.mem_cons_self p rest)
    have ih2 := ih (fun q hq => hk q (List.mem_cons_of_mem p hq))
    by_cases hpn : p.1 = n
    · have hnk : n ≠ k := fun hc => h1 (hpn.trans hc)
      simp [dictLookup, hpn, hnk]
    · simp [dictLookup, hpn, ih2]

theorem dictLookup_some_of_any (d : SDict) (k : Int)
    (h : d.any (fun p => decide (p.1 = k)) = true) :
    ∃ l, dictLookup d k = some l := by
  induction d with
  | nil => simp at h
  | cons p rest ih =>
    by_cases hpk : p.1 = k
    · exact ⟨p.2, by simp [dictLookup, hpk]⟩
    · have h2 : rest.any (fun p => decide (p.1 = k)) = true := by
        simpa [List.any_cons, hpk] using h
      obtain ⟨l, hl⟩ := ih h2
      exact ⟨l, by simp [dictLookup, hpk, hl]⟩

theorem dictLookup_dictAppend (d : SDict) (k : Int) (a : List Nat) (n : Int) :
    dictLookup (dictAppend d k a) n =
      if n = k then some (((dictLookup d n).getD []) ++ [a]) else dictLookup d n := by
  rw [dictAppend]
  cases hany : d.any (fun p => decide (p.1 = k)) with
  | false =>
    have hk : ∀ p ∈ d, p.1 ≠ k := by
      intro p hp hc
      have hta : d.any (fun p => decide (p.1 = k)) = true :=
        List.any_eq_true.mpr ⟨p, hp, by simp [hc]⟩
      rw [hany] at hta
      exact Bool.false_ne_true hta
    rw [if_neg (by simp [hany]), dictLookup_append_right d k a hk n]
    by_cases hnk : n = k
    · subst hnk
      rw [if_pos rfl, if_pos rfl, dictLookup_eq_none d n hk]
      rfl
    · simp [hnk]
  | true =>
    rw [if_pos (by simp [hany]), dictLookup_map_upd]
    by_cases hnk : n = k
    · subst hnk
      obtain ⟨l, hl⟩ := dictLookup_some_of_any d n hany
      simp [hl]
    · simp [hnk]

theorem dictLookup_insertAll (ps : List (List Nat × Int)) :
    ∀ (d : SDict) (n : Int),
      dictLookup (dictInsertAll d ps) n =
        match dictLookup d n with
        | none => if addrsFor ps n = [] then none else some (addrsFor ps n)
        | some l => some (l ++ addrsFor ps n) := by
  induction ps with
  | nil =>
    intro d n
    cases hdn : dictLookup d n <;> simp [dictInsertAll, addrsFor, hdn]
  | cons q rest ih =>
    intro d n
    have hfold : dictInsertAll d (q :: rest) = dictInsertAll (dictAppend d q.2 q.1) rest := rfl
    rw [hfold, ih]
    rw [dictLookup_dictAppend]
    have haddrs : addrsFor (q :: rest) n =
        if q.2 = n then q.1 :: addrsFor rest n else addrsFor rest n := by
      by_cases hq : q.2 = n <;> simp [addrsFor, List.filterMap_cons, hq]
    by_cases hqn : q.2 = n
    · have hnq : n = q.2 := hqn.symm
      rw [if_pos hnq, haddrs, if_pos hqn]
      cases hdn : dictLookup d n <;> simp [hdn]
    · have hnq : n ≠ q.2 := fun hc => hqn hc.symm
      rw [if_neg hnq, haddrs, if_neg hqn]

theorem dictInsertAll_append (d : SDict) (ps qs : List (List Nat × Int)) :
    dictInsertAll d (ps ++ qs) = dictInsertAll (dictInsertAll d ps) qs :=
  List.foldl_append _ _ _ _

/-! ## Lemmas: the three indexer loops -/

theorem indexK_char (i j : Nat) (l : List SVal) :
    ∀ (k : Nat) (d : SDict),
      indexK i j k l d =
        if l.all (svalDepthLe 0) then Except.ok (dictInsertAll d (occs3From i j k l))
        else Except.error (PyErr.typeError depthMsg) := by
  induction l with
  | nil => intro k d; simp [indexK, occs3From, dictInsertAll]
  | cons v rest ih =>
    intro k d
    cases v with
    | noneV => simp [indexK, occs3From, svalDepthLe, ih]
    | id n =>
      simp only [indexK, occs3From]
      rw [ih]
      simp [svalDepthLe, dictInsertAll]
    | list l2 => simp [indexK, svalDepthLe]

theorem indexJ_char (i : Nat) (l : List SVal) :
    ∀ (j : Nat) (d : SDict),
      indexJ i j l d =
        if l.all (svalDepthLe 1) then Except.ok (dictInsertAll d (occs2From i j l))
        else Except.error (PyErr.typeError depthMsg) := by
  induction l with
  | nil => intro j d; simp [indexJ, occs2From, dictInsertAll]
  | cons v rest ih =>
    intro j d
    cases v with
    | noneV => simp [indexJ, occs2From, svalDepthLe, ih]
    | id n =>
      simp only [indexJ, occs2From]
      rw [ih]
      simp [svalDepthLe, dictInsertAll]
    | list l2 =>
      simp only [indexJ, occs2From]
      rw [indexK_char i j l2 0 d]
      by_cases h2 : l2.all (svalDepthLe 0)
      · rw [if_pos h2]
        show indexJ i (j + 1) rest (dictInsertAll d (occs3From i j 0 l2)) = _
        rw [ih]
        simp [svalDepthLe, h2, dictInsertAll_append]
      · rw [if_neg h2]
        have : ¬(svalDepthLe 1 (SVal.list l2) && rest.all (svalDepthLe 1)) = true := by
          simp [svalDepthLe, h2]
        simp [List.all_cons, this, svalDepthLe, h2]

theorem indexI_char (l : List SVal) :
    ∀ (i : Nat) (d : SDict),
      indexI i l d =
        if l.all (svalDepthLe 2) then Except.ok (dictInsertAll d (occs1From i l))
        else Except.error (PyErr.typeError depthMsg) := by
  induction l with
  | nil => intro i d; simp [indexI, occs1From, dictInsertAll]
  | cons v rest ih =>
    intro i d
    cases v with
    | noneV => simp [indexI, occs1From, svalDepthLe, ih]
    | id n =>
      simp only [indexI, occs1From]
      rw [ih]
      simp [svalDepthLe, dictInsertAll]
    | list l2 =>
      simp only [indexI, occs1From]
      rw [indexJ_char i l2 0 d]
      by_cases h2 : l2.all (svalDepthLe 1)
      · rw [if_pos h2]
        show indexI (i + 1) rest (dictInsertAll d (occs2From i 0 l2)) = _
        rw [ih]
        simp [svalDepthLe, h2, dictInsertAll_append]
      · rw [if_neg h2]
        have : ¬(svalDepthLe 2 (SVal.list l2) && rest.all (svalDepthLe 2)) = true := by
          simp [svalDepthLe, h2]
        simp [List.all_cons, this, svalDepthLe, h2]

/-! ## Lemmas: the boundary dereferencer -/

theorem vm_char {α : Type} (V : List α) :
    ∀ l : List BVal, l.all (isRawDepth 0) = true →
      (l.any (hasBadN V.length 0) = true →
        vertex_mapper V l = Except.error PyErr.indexError) ∧
      (l.any (hasBadN V.length 0) = false →
        ∃ r, vertex_mapper V l = Except.ok r ∧ r.map DVal.vtx = l.map (derefCodeN V 0)) := by
  intro l
  induction l with
  | nil => exact fun _ => ⟨fun h => by simp at h, fun _ => ⟨[], rfl, rfl⟩⟩
  | cons b rest ih =>
    intro hs
    cases b with
    | list l2 => simp [List.all_cons, isRawDepth] at hs
    | int i =>
      have hsrest : rest.all (isRawDepth 0) = true := by
        simpa [List.all_cons, isRawDepth] using hs
      obtain ⟨ihE, ihO⟩ := ih hsrest
      constructor
      · intro h
        cases hg : goodLeaf V.length i with
        | false => simp [vertex_mapper, pyGet_bad V i hg]
        | true =>
          have hrest : rest.any (hasBadN V.length 0) = true := by
            simpa [List.any_cons, hasBadN, hg] using h
          obtain ⟨v, hok, _⟩ := pyGet_good V i hg
          simp [vertex_mapper, hok, ihE hrest]
      · intro h
        have hg : goodLeaf V.length i = true := by
          cases hg : goodLeaf V.length i
          · simp [List.any_cons, hasBadN, hg] at h
          · rfl
        have hrest : rest.any (hasBadN V.length 0) = false := by
          simpa [List.any_cons, hasBadN, hg] using h
        obtain ⟨v, hok, hvtx⟩ := pyGet_good V i hg
        obtain ⟨r, hr, hmap⟩ := ihO hrest
        refine ⟨v :: r, by simp [vertex_mapper, hok, hr], ?_⟩
        simp only [List.map_cons, hmap, derefCodeN, hvtx]

theorem vmD_charP {α : Type} (V : List α) : CharP V 0 (vmD V) := by
  intro l hs
  obtain ⟨hE, hO⟩ := vm_char V l hs
  cases hany : l.any (hasBadN V.length 0) with
  | true => simp [vmD, hE hany, hany, Except.map]
  | false =>
    obtain ⟨r, hr, hmap⟩ := hO hany
    simp only [vmD, hr, hany, Except.map, Bool.false_eq_true, if_false]
    rw [hmap]

theorem derefLevel_char {α : Type} (V : List α) (d : Nat)
    (f : List BVal → Except PyErr (DVal α)) (hf : CharP V d f) :
    ∀ bs : List BVal, bs.all (isRawDepth (d + 1)) = true →
      derefLevel f bs =
        if bs.any (hasBadN V.length (d + 1)) then Except.error PyErr.indexError
        else Except.ok (bs.map (derefCodeN V (d + 1))) := by
  intro bs
  induction bs with
  | nil => intro _; simp [derefLevel]
  | cons x rest ih =>
    intro hs
    cases x with
    | int i => simp [List.all_cons, isRawDepth] at hs
    | list lx =>
      have hx : lx.all (isRawDepth d) = true := by
        have := hs
        simp only [List.all_cons, Bool.and_eq_true, isRawDepth] at this
        exact this.1
      have hrest : rest.all (isRawDepth (d + 1)) = true := by
        have := hs
        simp only [List.all_cons, Bool.and_eq_true] at this
        exact this.2
      have hlx := hf lx hx
      cases hbx : lx.any (hasBadN V.length d) with
      | true =>
        have hlx2 : f lx = Except.error PyErr.indexError := by simpa [hbx] using hlx
        simp [derefLevel, hlx2, List.any_cons, hasBadN, hbx]
      | false =>
        have hlx2 : f lx = Except.ok (DVal.list (lx.map (derefCodeN V d))) := by
          simpa [hbx] using hlx
        have hrec := ih hrest
        cases hbr : rest.any (hasBadN V.length (d + 1)) with
        | true =>
          have hrec2 : derefLevel f rest = Except.error PyErr.indexError := by
            simpa [hbr] using hrec
          simp [derefLevel, hlx2, hrec2, List.any_cons, hasBadN, hbx, hbr]
        | false =>
          have hrec2 : derefLevel f rest = Except.ok (rest.map (derefCodeN V (d + 1))) := by
            simpa [hbr] using hrec
          simp [derefLevel, hlx2, hrec2, List.any_cons, hasBadN, hbx, hbr, derefCodeN]

theorem charP_step {α : Type} (V : List α) (d : Nat)
    (f : List BVal → Except PyErr (DVal α)) (hf : CharP V d f) :
    CharP V (d + 1) (fun l => Except.map DVal.list (derefLevel f l)) := by
  intro l hs
  show Except.map DVal.list (derefLevel f l) = _
  rw [derefLevel_char V d f hf l hs]
  cases hb : l.any (hasBadN V.length (d + 1)) <;> simp [hb, Except.map]

theorem surfD_charP {α : Type} (V : List α) : CharP V 1 (surfD V) :=
  charP_step V 0 (vmD V) (vmD_charP V)

theorem shellD_charP {α : Type} (V : List α) : CharP V 2 (shellD V) :=
  charP_step V 1 (surfD V) (surfD_charP V)

theorem solidD_charP {α : Type} (V : List α) : CharP V 3 (solidD V) :=
  charP_step V 2 (shellD V) (shellD_charP V)

theorem dispatch_multipoint {α : Type} (V : List α) (s : String)
    (hs : pyLower s = "multipoint") (b : BVal) (rest : List BVal) :
    dereference_boundary s (some (b :: rest)) V =
      Except.map (fun r => some r) (vmD V (b :: rest)) := by
  simp [dereference_boundary, hs]

theorem dispatch_multilinestring {α : Type} (V : List α) (s : String)
    (hs : pyLower s = "multilinestring") (b : BVal) (rest : List BVal) :
    dereference_boundary s (some (b :: rest)) V =
      Except.map (fun r => some (DVal.list r)) (derefLevel (vmD V) (b :: rest)) := by
  simp [dereference_boundary, hs]

theorem dispatch_surface {α : Type} (V : List α) (s : String)
    (hs : pyLower s = "multisurface" ∨ pyLower s = "compositesurface")
    (b : BVal) (rest : List BVal) :
    dereference_boundary s (some (b :: rest)) V =
      Except.map (fun r => some (DVal.list r)) (derefLevel (surfD V) (b :: rest)) := by
  cases hs with
  | inl h => simp [dereference_boundary, h]
  | inr h => simp [dereference_boundary, h]

theorem dispatch_solid {α : Type} (V : List α) (s : String)
    (hs : pyLower s = "solid") (b : BVal) (rest : List BVal) :
    dereference_boundary s (some (b :: rest)) V =
      Except.map (fun r => some (DVal.list r)) (derefLevel (shellD V) (b :: rest)) := by
  simp [dereference_boundary, hs]

theorem dispatch_multisolid {α : Type} (V : List α) (s : String)
    (hs : pyLower s = "multisolid" ∨ pyLower s = "compositesolid")
    (b : BVal) (rest : List BVal) :
    dereference_boundary s (some (b :: rest)) V =
      Except.map (fun r => some (DVal.list r)) (derefLevel (solidD V) (b :: rest)) := by
  cases hs with
  | inl h => simp [dereference_boundary, h]
  | inr h => simp [dereference_boundary, h]

theorem deref_master {α : Type} (V : List α) (k : GeometryKind) (s : String)
    (hs : pyLower s = kindTag k) (b : BVal) (rest : List BVal)
    (hshape : (b :: rest).all (isRawDepth (extraDepth k)) = true) :
    dereference_boundary s (some (b :: rest)) V =
      if (b :: rest).any (hasBadN V.length (extraDepth k)) then Except.error PyErr.indexError
      else Except.ok (some (DVal.list ((b :: rest).map (derefCodeN V (extraDepth k))))) := by
  cases k with
  | multiPoint =>
    simp only [kindTag] at hs
    simp only [extraDepth] at hshape ⊢
    rw [dispatch_multipoint V s hs b rest, vmD_charP V (b :: rest) hshape]
    cases hb : (b :: rest).any (hasBadN V.length 0) <;> simp [hb, Except.map]
  | multiLineString =>
    simp only [kindTag] at hs
    simp only [extraDepth] at hshape ⊢
    rw [dispatch_multilinestring V s hs b rest,
      derefLevel_char V 0 (vmD V) (vmD_charP V) (b :: rest) hshape]
    cases hb : (b :: rest).any (hasBadN V.length 1) <;> simp [hb, Except.map]
  | multiSurface =>
    simp only [kindTag] at hs
    simp only [extraDepth] at hshape ⊢
    rw [dispatch_surface V s (Or.inl hs) b rest,
      derefLevel_char V 1 (surfD V) (surfD_charP V) (b :: rest) hshape]
    cases hb : (b :: rest).any (hasBadN V.length 2) <;> simp [hb, Except.map]
  | compositeSurface =>
    simp only [kindTag] at hs
    simp only [extraDepth] at hshape ⊢
    rw [dispatch_surface V s (Or.inr hs) b rest,
      derefLevel_char V 1 (surfD V) (surfD_charP V) (b :: rest) hshape]
    cases hb : (b :: rest).any (hasBadN V.length 2) <;> simp [hb, Except.map]
  | solid =>
    simp only [kindTag] at hs
    simp only [extraDepth] at hshape ⊢
    rw [dispatch_solid V s hs b rest,
      derefLevel_char V 2 (shellD V) (shellD_charP V) (b :: rest) hshape]
    cases hb : (b :: rest).any (hasBadN V.length 3) <;> simp [hb, Except.map]
  | multiSolid =>
    simp only [kindTag] at hs
    simp only [extraDepth] at hshape ⊢
    rw [dispatch_multisolid V s (Or.inl hs) b rest,
      derefLevel_char V 3 (solidD V) (solidD_charP V) (b :: rest) hshape]
    cases hb : (b :: rest).any (hasBadN V.length 4) <;> simp [hb, Except.map]
  | compositeSolid =>
    simp only [kindTag] at hs
    simp only [extraDepth] at hshape ⊢
    rw [dispatch_multisolid V s (Or.inr hs) b rest,
      derefLevel_char V 3 (solidD V) (solidD_charP V) (b :: rest) hshape]
    cases hb : (b :: rest).any (hasBadN V.length 4) <;> simp [hb, Except.map]

/-! ## Lemmas: well-formed, in-range boundaries -/

theorem inRange_good (n : Nat) (i : Int) (h : inRangeLeaf n i = true) :
    goodLeaf n i = true ∧ pyWrap n i = i := by
  rw [inRangeLeaf, Bool.and_eq_true, decide_eq_true_eq, decide_eq_true_eq] at h
  obtain ⟨h1, h2⟩ := h
  have hw : pyWrap n i = i := by rw [pyWrap, if_neg (by omega)]
  refine ⟨?_, hw⟩
  rw [goodLeaf, hw]
  simp [h1, h2]

theorem code_eq_spec {α : Type} (V : List α) :
    ∀ (d : Nat) (b : BVal), isRawDepth d b = true →
      leavesInRangeN V.length d b = true →
      hasBadN V.length d b = false ∧ derefCodeN V d b = derefSpecN V d b := by
  intro d
  induction d with
  | zero =>
    intro b hshape hrange
    cases b with
    | list l => simp [isRawDepth] at hshape
    | int i =>
      obtain ⟨hg, hw⟩ := inRange_good V.length i (by simpa [leavesInRangeN] using hrange)
      exact ⟨by simp [hasBadN, hg], by simp [derefCodeN, derefSpecN, hw]⟩
  | succ d ih =>
    intro b hshape hrange
    cases b with
    | int i => simp [isRawDepth] at hshape
    | list l =>
      have hshape' : ∀ x ∈ l, isRawDepth d x = true :=
        List.all_eq_true.mp (by simpa [isRawDepth] using hshape)
      have hrange' : ∀ x ∈ l, leavesInRangeN V.length d x = true :=
        List.all_eq_true.mp (by simpa [leavesInRangeN] using hrange)
      constructor
      · cases hany : l.any (hasBadN V.length d) with
        | false => simp [hasBadN, hany]
        | true =>
          obtain ⟨x, hx, hbx⟩ := List.any_eq_true.mp hany
          rw [(ih x (hshape' x hx) (hrange' x hx)).1] at hbx
          exact absurd hbx (by simp)
      · simp only [derefCodeN, derefSpecN]
        exact congrArg DVal.list
          (List.map_congr_left (fun x hx => (ih x (hshape' x hx) (hrange' x hx)).2))

theorem spec_depth {α : Type} (V : List α) :
    ∀ (d : Nat) (b : BVal), isRawDepth d b = true →
      leavesInRangeN V.length d b = true →
      isDerefDepthN d (derefSpecN V d b) = true := by
  intro d
  induction d with
  | zero =>
    intro b hshape hrange
    cases b with
    | list l => simp [isRawDepth] at hshape
    | int i =>
      have h := hrange
      rw [leavesInRangeN, inRangeLeaf, Bool.and_eq_true,
        decide_eq_true_eq, decide_eq_true_eq] at h
      have ht : i.toNat < V.length := by omega
      simp only [derefSpecN, vtxAt]
      rw [List.get?_eq_get ht]
      rfl
  | succ d ih =>
    intro b hshape hrange
    cases b with
    | int i => simp [isRawDepth] at hshape
    | list l =>
      have hshape' : ∀ x ∈ l, isRawDepth d x = true :=
        List.all_eq_true.mp (by simpa [isRawDepth] using hshape)
      have hrange' : ∀ x ∈ l, leavesInRangeN V.length d x = true :=
        List.all_eq_true.mp (by simpa [leavesInRangeN] using hrange)
      simp only [derefSpecN, isDerefDepthN]
      rw [List.all_eq_true]
      intro x hx
      obtain ⟨y, hy, rfl⟩ := List.mem_map.mp hx
      exact ih y (hshape' y hy) (hrange' y hy)

/-! ## Lemmas: the surface resolver -/

theorem gsbElem_of_resolve {α : Type} (b : DVal α) (a : List Int)
    (hlen : a.length = 1 ∨ a.length = 2 ∨ a.length = 3) (e : DVal α)
    (hres : resolvePath b a = some e) : gsbElem b a = Except.ok e := by
  rcases a with _ | ⟨c0, a1⟩
  · simp at hlen
  rcases a1 with _ | ⟨c1, a2⟩
  · -- address [c0]
    simp only [resolvePath] at hres
    cases hg0 : dvalGetEl b c0 with
    | error err => simp only [hg0] at hres; exact Option.noConfusion hres
    | ok e0 =>
      simp only [hg0, resolvePath, Option.some.injEq] at hres
      subst hres
      simp [gsbElem, addrComp, hg0]
  rcases a2 with _ | ⟨c2, a3⟩
  · -- address [c0, c1]
    simp only [resolvePath] at hres
    cases hg0 : dvalGetEl b c0 with
    | error err => simp only [hg0] at hres; exact Option.noConfusion hres
    | ok e0 =>
      simp only [hg0] at hres
      cases hg1 : dvalGetEl e0 c1 with
      | error err => simp only [hg1] at hres; exact Option.noConfusion hres
      | ok e1 =>
        simp only [hg1, resolvePath, Option.some.injEq] at hres
        subst hres
        simp [gsbElem, addrComp, hg0, hg1]
  rcases a3 with _ | ⟨c3, a4⟩
  · -- address [c0, c1, c2]
    simp only [resolvePath] at hres
    cases hg0 : dvalGetEl b c0 with
    | error err => simp only [hg0] at hres; exact Option.noConfusion hres
    | ok e0 =>
      simp only [hg0] at hres
      cases hg1 : dvalGetEl e0 c1 with
      | error err => simp only [hg1] at hres; exact Option.noConfusion hres
      | ok e1 =>
        simp only [hg1] at hres
        cases hg2 : dvalGetEl e1 c2 with
        | error err => simp only [hg2] at hres; exact Option.noConfusion hres
        | ok e2 =>
          simp only [hg2, resolvePath, Option.some.injEq] at hres
          subst hres
          simp [gsbElem, addrComp, hg0, hg1, hg2]
  · simp at hlen

theorem gsbLoop_of_resolve {α : Type} (b : DVal α) :
    ∀ addrs : List (List Int),
      (∀ a ∈ addrs,
        (a.length = 1 ∨ a.length = 2 ∨ a.length = 3) ∧ (resolvePath b a).isSome = true) →
      gsbLoop b addrs = Except.ok (addrs.filterMap (resolvePath b)) := by
  intro addrs
  induction addrs with
  | nil => intro _; rfl
  | cons a rest ih =>
    intro h
    obtain ⟨hlen, hsome⟩ := h a (List.mem_cons_self a rest)
    obtain ⟨e, he⟩ := Option.isSome_iff_exists.mp hsome
    have h1 := gsbElem_of_resolve b a hlen e he
    have h2 := ih (fun x hx => h x (List.mem_cons_of_mem a hx))
    simp [gsbLoop, h1, h2, List.filterMap_cons, he]

/-! ## Lemmas: the city-object generator -/

theorem genRun_eq (t : String) (l : List CityObject) :
    genRunAux t l = (l.filter (fun co => decide (pyLower co.type = t)), ⟨[], t⟩) := by
  induction l with
  | nil => rfl
  | cons co rest ih =>
    by_cases h : pyLower co.type = t <;> simp [genRunAux, List.filter_cons, h, ih]

theorem genRun_mk (l : List CityObject) (t : String) :
    genRun ⟨l, t⟩ = (l.filter (fun co => decide (pyLower co.type = t)), ⟨[], t⟩) :=
  genRun_eq t l

theorem genRun_genNext (g : GenState) :
    genRun g =
      match genNext g with
      | none => ([], ⟨[], g.target⟩)
      | some (co, g2) => (co :: (genRun g2).1, (genRun g2).2) := by
  obtain ⟨l, t⟩ := g
  induction l with
  | nil => rfl
  | cons co rest ih =>
    by_cases h : pyLower co.type = t
    · simp [genRun, genNext, genRunAux, genNextAux, h]
    · simp only [genRun, genNext, genRunAux, genNextAux, if_neg h] at ih ⊢
      exact ih

/-! ## Helper for the surface-extraction loop -/

theorem surfacesLoop_err (srf : List (String × PyData)) (rest : List (List (String × PyData)))
    (i : Nat) (tv cv pv : Option PyData) :
    ∃ e, surfacesLoop (srf :: rest) i tv cv pv = Except.error e := by
  simp only [surfacesLoop]
  cases (srf.foldl extractStep ⟨tv, cv, pv, []⟩).typeV with
  | none => exact ⟨_, rfl⟩
  | some x =>
    cases (srf.foldl extractStep ⟨tv, cv, pv, []⟩).childrenV with
    | none => exact ⟨_, rfl⟩
    | some y =>
      cases (srf.foldl extractStep ⟨tv, cv, pv, []⟩).parentV with
      | none => exact ⟨_, rfl⟩
      | some z => exact ⟨_, rfl⟩

/-! ## Claim theorems -/

/-- Claim C1: the claim states that construction with a non-empty semantics
object succeeds and yields, for each surface entry `i`, a `SemanticSurface`
with a resolved index.  The code cannot do this: `_dereference_surfaces`
calls `SemanticSurface(type=..., children=..., parent=..., attributes=...)`
without the required positional argument `values`, so the call raises
`TypeError` on the first surface and construction always aborts.  This
theorem evaluates the code at a concrete failing input and shows the failure
is universal for non-empty `values`/`surfaces`. -/
theorem claim_c1 :
    dereference_surfaces (some ⟨some [SVal.id 0],
      [[("type", PyData.str "WallSurface"), ("children", PyData.list []),
        ("parent", PyData.int 0)]]⟩) =
      Except.error (PyErr.typeError missingValuesMsg) ∧
    ∀ o : SemObj, pyFalsyValues o.values = false → o.surfaces ≠ [] →
      ∃ e, dereference_surfaces (some o) = Except.error e := by
  constructor
  · rfl
  · intro o hv hsur
    obtain ⟨srf, rest, hsr⟩ : ∃ srf rest, o.surfaces = srf :: rest := by
      cases hos : o.surfaces with
      | nil => exact absurd hos hsur
      | cons a b => exact ⟨a, b, rfl⟩
    have : dereference_surfaces (some o) = surfacesLoop o.surfaces 0 none none none := by
      simp [dereference_surfaces, hv]
    rw [this, hsr]
    exact surfacesLoop_err srf rest 0 none none none

/-- Witness for C1: the hypotheses of the general part are satisfiable, and at
a minimal concrete semantics object the construction indeed errors. -/
theorem claim_c1_witness :
    pyFalsyValues (some [SVal.id 0]) = false ∧
    ∃ e, dereference_surfaces
        (some ⟨some [SVal.id 0], [[("type", PyData.str "WallSurface")]]⟩) =
      Except.error e :=
  ⟨rfl, claim_c1.2 ⟨some [SVal.id 0], [[("type", PyData.str "WallSurface")]]⟩ rfl (by simp)⟩

/-- Claim C2: for every recognized geometry kind and non-empty raw boundary of
the fixed nesting depth of the kind whose leaves are all in range of the vertex
table, dereferencing succeeds, replaces every leaf index `i` by
`vertexTable[i]` (the content of `derefSpecN`), and the result nests to the
fixed depth of the kind. -/
theorem claim_c2 {α : Type} (V : List α) (k : GeometryKind) (s : String)
    (hs : pyLower s = kindTag k) (b : BVal) (rest : List BVal)
    (hshape : (b :: rest).all (isRawDepth (extraDepth k)) = true)
    (hrange : (b :: rest).all (leavesInRangeN V.length (extraDepth k)) = true) :
    dereference_boundary s (some (b :: rest)) V =
      Except.ok (some (DVal.list ((b :: rest).map (derefSpecN V (extraDepth k))))) ∧
    isDerefDepthN (kindDepth k) (DVal.list ((b :: rest).map (derefSpecN V (extraDepth k)))) = true := by
  have hshape' := List.all_eq_true.mp hshape
  have hrange' := List.all_eq_true.mp hrange
  have hpt : ∀ x ∈ b :: rest, hasBadN V.length (extraDepth k) x = false ∧
      derefCodeN V (extraDepth k) x = derefSpecN V (extraDepth k) x :=
    fun x hx => code_eq_spec V (extraDepth k) x (hshape' x hx) (hrange' x hx)
  have hbad : (b :: rest).any (hasBadN V.length (extraDepth k)) = false := by
    cases hany : (b :: rest).any (hasBadN V.length (extraDepth k)) with
    | false => rfl
    | true =>
      obtain ⟨x, hx, hbx⟩ := List.any_eq_true.mp hany
      rw [(hpt x hx).1] at hbx
      exact absurd hbx (by simp)
  constructor
  · rw [deref_master V k s hs b rest hshape, if_neg (by simp [hbad]),
      List.map_congr_left (fun x hx => (hpt x hx).2)]
  · simp only [kindDepth, isDerefDepthN]
    rw [List.all_eq_true]
    intro x hx
    obtain ⟨y, hy, rfl⟩ := List.mem_map.mp hx
    exact spec_depth V (extraDepth k) y (hshape' y hy) (hrange' y hy)

/-- Witness for C2: the MultiSurface example of the claim, derived from
`claim_c2` — boundaries `[[[0,1,2,0]]]` with three vertices dereference to
`[[[[0,0,0],[1,0,0],[0,1,0],[0,0,0]]]]`. -/
theorem claim_c2_witness :
    dereference_boundary "MultiSurface"
      (some [BVal.list [BVal.list [BVal.int 0, BVal.int 1, BVal.int 2, BVal.int 0]]])
      [[0, 0, 0], [1, 0, 0], [0, 1, 0]] =
    Except.ok (some (DVal.list [DVal.list [DVal.list
      [DVal.vtx [0, 0, 0], DVal.vtx [1, 0, 0], DVal.vtx [0, 1, 0], DVal.vtx [0, 0, 0]]]])) := by
  have h := (claim_c2 [[0, 0, 0], [1, 0, 0], [0, 1, 0]] GeometryKind.multiSurface
      "MultiSurface" (by rfl)
      (BVal.list [BVal.list [BVal.int 0, BVal.int 1, BVal.int 2, BVal.int 0]]) []
      (by rfl) (by rfl)).1
  exact h.trans (by rfl)

/-- Claim C3: for every `values` array nested at most three levels deep, the
built index maps each identifier occurring as a non-null leaf to the ordered
list of its occurrence addresses in traversal order (ascending index order at
every level, outer index first), and maps nothing else. -/
theorem claim_c3 (vs : List SVal) (h : vs.all (svalDepthLe 2) = true) :
    ∃ d, index_surface_boundaries (some vs) = Except.ok d ∧
      ∀ n : Int, dictLookup d n =
        if occAddrs vs n = [] then none else some (occAddrs vs n) := by
  cases vs with
  | nil =>
    refine ⟨[], rfl, fun n => ?_⟩
    simp [dictLookup, occAddrs, occs1From, addrsFor]
  | cons v rest =>
    refine ⟨dictInsertAll [] (occs1From 0 (v :: rest)), ?_, fun n => ?_⟩
    · show indexI 0 (v :: rest) [] = _
      rw [indexI_char (v :: rest) 0 [], if_pos h]
    · rw [dictLookup_insertAll]
      simp only [dictLookup, occAddrs]

/-- Witness for C3: the example from the claim, `values = [0, 1, 0]` — identifier 0
maps to `[[0],[2]]` in that order, identifier 1 to `[[1]]`, and an identifier
that never occurs is absent. -/
theorem claim_c3_witness :
    ∃ d, index_surface_boundaries (some [SVal.id 0, SVal.id 1, SVal.id 0]) = Except.ok d ∧
      dictLookup d 0 = some [[0], [2]] ∧ dictLookup d 1 = some [[1]] ∧
      dictLookup d 2 = none := by
  obtain ⟨d, hd, hl⟩ := claim_c3 [SVal.id 0, SVal.id 1, SVal.id 0] (by rfl)
  refine ⟨d, hd, ?_, ?_, ?_⟩
  · rw [hl 0]; rfl
  · rw [hl 1]; rfl
  · rw [hl 2]; rfl

/-- Claim C4: a `values` array with a list nested at a fourth level makes the
indexer fail with the depth `TypeError` (how the code realizes the
DepthExceeded error of the spec) instead of returning an index. -/
theorem claim_c4 (vs : List SVal) (h : vs.all (svalDepthLe 2) = false) :
    index_surface_boundaries (some vs) = Except.error (PyErr.typeError depthMsg) := by
  cases vs with
  | nil => simp at h
  | cons v rest =>
    show indexI 0 (v :: rest) [] = _
    rw [indexI_char (v :: rest) 0 [], if_neg (by simp [h])]

/-- Witness for C4: a concrete four-level `values` array fails with the depth
error. -/
theorem claim_c4_witness :
    [SVal.list [SVal.list [SVal.list [SVal.id 1]]]].all (svalDepthLe 2) = false ∧
    index_surface_boundaries (some [SVal.list [SVal.list [SVal.list [SVal.id 1]]]]) =
      Except.error (PyErr.typeError depthMsg) :=
  ⟨rfl, claim_c4 _ rfl⟩

/-- Counterexample for C5 as stated: the claim says the failure identifies
the offending index and its address, but the `IndexError` the code raises
carries no data at all — two boundaries with different offending indices at
different addresses produce the very same error value. -/
theorem claim_c5_counterexample :
    dereference_boundary "MultiSurface" (some [BVal.list [BVal.list [BVal.int 3]]])
        [[0, 0, 0]] =
      dereference_boundary "MultiSurface"
        (some [BVal.list [BVal.list [BVal.int 0, BVal.int 7], BVal.list [BVal.int 12]]])
        [[0, 0, 0]] ∧
    dereference_boundary "MultiSurface" (some [BVal.list [BVal.list [BVal.int 3]]])
        [[0, 0, 0]] = Except.error PyErr.indexError :=
  ⟨rfl, rfl⟩

/-- Claim C5 (amended): for every recognized kind and non-empty well-shaped
boundary with some leaf index out of Python range of the vertex table,
dereferencing fails with the bare `IndexError` (carrying no index/address
information) and no boundary is returned. -/
theorem claim_c5 {α : Type} (V : List α) (k : GeometryKind) (s : String)
    (hs : pyLower s = kindTag k) (b : BVal) (rest : List BVal)
    (hshape : (b :: rest).all (isRawDepth (extraDepth k)) = true)
    (hbad : (b :: rest).any (hasBadN V.length (extraDepth k)) = true) :
    dereference_boundary s (some (b :: rest)) V = Except.error PyErr.indexError := by
  rw [deref_master V k s hs b rest hshape, if_pos hbad]

/-- Witness for C5: a boundary index equal to `len(vertices)` (3) fails with
`IndexError`. -/
theorem claim_c5_witness :
    dereference_boundary "MultiSurface" (some [BVal.list [BVal.list [BVal.int 3]]])
      [[0, 0, 0], [1, 0, 0], [0, 1, 0]] = Except.error PyErr.indexError :=
  claim_c5 [[0, 0, 0], [1, 0, 0], [0, 1, 0]] GeometryKind.multiSurface "MultiSurface"
    (by rfl) (BVal.list [BVal.list [BVal.int 3]]) [] (by rfl) (by rfl)

/-- Claim C6: for every geometry type string (in particular all seven
recognized kinds), dereferencing an absent (`None`) or empty boundary returns
the empty boundary and never fails, regardless of the vertex table. -/
theorem claim_c6 {α : Type} (s : String) (V : List α) :
    dereference_boundary s none V = Except.ok (some (DVal.list [])) ∧
    dereference_boundary s (some []) V = Except.ok (some (DVal.list [])) :=
  ⟨rfl, rfl⟩

/-- Claim C7: for every dereferenced boundary and list of addresses of length
1–3 that resolve in the boundary, `_get_surface_boundaries` returns exactly
the elements reached by indexing successively with each address component, in
the order the addresses are listed, and returns the empty sequence for an
absent address list. -/
theorem claim_c7 {α : Type} (b : DVal α) (addrs : List (List Int))
    (h : ∀ a ∈ addrs, (a.length = 1 ∨ a.length = 2 ∨ a.length = 3) ∧
      (resolvePath b a).isSome = true) :
    get_surface_boundaries b (some addrs) = Except.ok (addrs.filterMap (resolvePath b)) ∧
    get_surface_boundaries b none = Except.ok [] := by
  constructor
  · cases addrs with
    | nil => rfl
    | cons a rest =>
      show gsbLoop b (a :: rest) = _
      exact gsbLoop_of_resolve b (a :: rest) h
  · rfl

/-- Witness for C7: resolving the addresses `[[0,1],[1]]` in a small
dereferenced boundary returns the two addressed elements in order. -/
theorem claim_c7_witness :
    get_surface_boundaries
      (DVal.list [DVal.list [DVal.vtx (10 : Int), DVal.vtx 11], DVal.vtx 12])
      (some [[0, 1], [1]]) = Except.ok [DVal.vtx 11, DVal.vtx 12] := by
  have h := (claim_c7
      (DVal.list [DVal.list [DVal.vtx (10 : Int), DVal.vtx 11], DVal.vtx 12])
      [[0, 1], [1]] (by decide)).1
  exact h.trans (by rfl)

/-- Counterexample for C8 as stated: the sequence returned for a string
filter is not restartable.  For a one-object model the returned generator
yields the matching object on its first pass, but the pass leaves the
generator exhausted and a second pass yields nothing. -/
theorem claim_c8_counterexample :
    get_cityobjects ⟨[⟨"a", "Building", []⟩]⟩ (FilterArg.pyStr "Building") =
      Except.ok (CityObjSeq.genSeq ⟨[⟨"a", "Building", []⟩], "building"⟩) ∧
    (genRun ⟨[⟨"a", "Building", []⟩], "building"⟩).1 = [⟨"a", "Building", []⟩] ∧
    (genRun (genRun ⟨[⟨"a", "Building", []⟩], "building"⟩).2).1 = [] :=
  ⟨rfl, rfl, rfl⟩

/-- Claim C8 (amended): `get_cityobjects` with no filter returns the
`cityobjects` list itself; with a string filter it returns a fresh one-shot
generator whose single pass yields exactly the CityObjects whose type matches
the filter case-insensitively, in order (a subsequence of the model), and
which is then exhausted — a second pass yields nothing; and it fails with
`TypeError` if and only if a non-string, non-None filter is supplied. -/
theorem claim_c8 (m : CityModel) :
    get_cityobjects m FilterArg.pyNone = Except.ok (CityObjSeq.pyListSeq m.cityobjects) ∧
    (∀ s : String, ∃ g : GenState,
      get_cityobjects m (FilterArg.pyStr s) = Except.ok (CityObjSeq.genSeq g) ∧
      (genRun g).1.Sublist m.cityobjects ∧
      (∀ co, co ∈ (genRun g).1 ↔ co ∈ m.cityobjects ∧ pyLower co.type = pyLower s) ∧
      (genRun (genRun g).2).1 = []) ∧
    (∀ t : FilterArg,
      get_cityobjects m t = Except.error (PyErr.typeError "type parameter must be a string") ↔
      t ≠ FilterArg.pyNone ∧ ∀ u, t ≠ FilterArg.pyStr u) := by
  refine ⟨rfl, ?_, ?_⟩
  · intro s
    refine ⟨⟨m.cityobjects, pyLower s⟩, rfl, ?_, ?_, ?_⟩
    · rw [genRun_mk]
      exact List.filter_sublist _
    · intro co
      rw [genRun_mk]
      show co ∈ m.cityobjects.filter (fun co => decide (pyLower co.type = pyLower s)) ↔ _
      rw [List.mem_filter, decide_eq_true_eq]
    · have h2 : (genRun (⟨m.cityobjects, pyLower s⟩ : GenState)).2 = ⟨[], pyLower s⟩ := by
        rw [genRun_mk]
      rw [h2, genRun_mk]
      rfl
  · intro t
    cases t with
    | pyNone =>
      exact ⟨fun he => Except.noConfusion he, fun ⟨h1, _⟩ => absurd rfl h1⟩
    | pyStr s =>
      exact ⟨fun he => Except.noConfusion he, fun ⟨_, h2⟩ => absurd rfl (h2 s)⟩
    | pyInt n =>
      exact ⟨fun _ => ⟨fun hc => FilterArg.noConfusion hc, fun u hc => FilterArg.noConfusion hc⟩,
        fun _ => rfl⟩
    | pyList l =>
      exact ⟨fun _ => ⟨fun hc => FilterArg.noConfusion hc, fun u hc => FilterArg.noConfusion hc⟩,
        fun _ => rfl⟩

/-- Claim C9: a non-empty boundary with an unrecognized geometry-kind string
falls off the `elif` chain: dereferencing raises nothing and returns Python
`None`, so the constructed Geometry has `boundaries = None` (not an empty or
dereferenced boundary). -/
theorem claim_c9 {α : Type} (s : String)
    (h : pyLower s ∉ ["multipoint", "multilinestring", "multisurface",
      "compositesurface", "solid", "multisolid", "compositesolid"])
    (b : BVal) (rest : List BVal) (V : List α) (lod : Option Int) :
    dereference_boundary s (some (b :: rest)) V = Except.ok none ∧
    Geometry.make s lod (some (b :: rest)) none V =
      Except.ok ⟨s, lod, none, []⟩ := by
  simp only [List.mem_cons, List.not_mem_nil, or_false] at h
  push_neg at h
  obtain ⟨h1, h2, h3, h4, h5, h6, h7⟩ := h
  have hderef : dereference_boundary s (some (b :: rest)) V = Except.ok none := by
    simp [dereference_boundary, h1, h2, h3, h4, h5, h6, h7]
  exact ⟨hderef, by simp [Geometry.make, hderef, dereference_surfaces]⟩

/-- Witness for C9: `"GenericCityObject"` is not a recognized kind; the
boundary comes back as `None` and the Geometry stores `None`. -/
theorem claim_c9_witness :
    dereference_boundary "GenericCityObject" (some [BVal.int 0]) [[0, 0, 0]] =
      Except.ok none ∧
    Geometry.make "GenericCityObject" (some 2) (some [BVal.int 0]) none [[0, 0, 0]] =
      Except.ok ⟨"GenericCityObject", some 2, none, []⟩ :=
  claim_c9 "GenericCityObject" (by decide) (BVal.int 0) [] [[0, 0, 0]] (some 2)

/-- Claim C10: vertex lookup has no lower-bound check — a well-shaped
boundary whose leaves are all in Python range (which includes negative
indices `-m` with `1 ≤ m ≤ len(V)`) dereferences without error, and a
negative leaf `-m` silently receives the vertex at position `len(V) - m`
(Python wrap-around). -/
theorem claim_c10 {α : Type} (V : List α) (k : GeometryKind) (s : String)
    (hs : pyLower s = kindTag k) (b : BVal) (rest : List BVal)
    (hshape : (b :: rest).all (isRawDepth (extraDepth k)) = true)
    (hgood : (b :: rest).any (hasBadN V.length (extraDepth k)) = false) :
    dereference_boundary s (some (b :: rest)) V =
      Except.ok (some (DVal.list ((b :: rest).map (derefCodeN V (extraDepth k))))) ∧
    ∀ (m : Nat) (v : α), 1 ≤ m → m ≤ V.length → V.get? (V.length - m) = some v →
      derefCodeN V 0 (BVal.int (-(m : Int))) = DVal.vtx v := by
  constructor
  · rw [deref_master V k s hs b rest hshape, if_neg (by simp [hgood])]
  · intro m v h1 h2 hv
    have hw : pyWrap V.length (-(m : Int)) = (V.length : Int) - m := by
      rw [pyWrap, if_pos (by omega)]
      omega
    have ht : (pyWrap V.length (-(m : Int))).toNat = V.length - m := by
      rw [hw]; omega
    simp only [derefCodeN, ht, vtxAt, hv]

/-- Witness for C10: for a MultiPoint boundary `[-1]` over two vertices the
result is the last vertex, with no error. -/
theorem claim_c10_witness :
    dereference_boundary "MultiPoint" (some [BVal.int (-1)]) [[0, 0, 0], [9, 9, 9]] =
      Except.ok (some (DVal.list [DVal.vtx [9, 9, 9]])) := by
  have h := (claim_c10 [[0, 0, 0], [9, 9, 9]] GeometryKind.multiPoint "MultiPoint"
      (by rfl) (BVal.int (-1)) [] (by rfl) (by rfl)).1
  exact h.trans (by rfl)

/-! ## Sanity examples (definitions compute) -/

example :
    dereference_boundary "MultiSurface"
      (some [BVal.list [BVal.list [BVal.int 0, BVal.int 1, BVal.int 2, BVal.int 0]]])
      [[0, 0, 0], [1, 0, 0], [0, 1, 0]] =
    Except.ok (some (DVal.list [DVal.list [DVal.list
      [DVal.vtx [0, 0, 0], DVal.vtx [1, 0, 0], DVal.vtx [0, 1, 0], DVal.vtx [0, 0, 0]]]])) := by
  rfl

example :
    dereference_boundary "multisurface"
      (some [BVal.list [BVal.list [BVal.int 3]]])
      [[0, 0, 0]] = (Except.error PyErr.indexError : Except PyErr (Option (DVal (List Int)))) := by
  rfl

example :
    dereference_boundary "banana" (some [BVal.int 0]) [[0, 0, 0]] =
    (Except.ok none : Except PyErr (Option (DVal (List Int)))) := by
  rfl

example :
    dereference_boundary "Solid" (none : Option (List BVal)) ([] : List (List Int)) =
    Except.ok (some (DVal.list [])) := by
  rfl

example :
    index_surface_boundaries (some [SVal.id 0, SVal.id 1, SVal.id 0]) =
    Except.ok [(0, [[0], [2]]), (1, [[1]])] := by
  rfl

example :
    index_surface_boundaries (some [SVal.list [SVal.list [SVal.list [SVal.id 1]]]]) =
    Except.error (PyErr.typeError depthMsg) := by
  rfl

example :
    index_surface_boundaries (some [SVal.noneV, SVal.list [SVal.id 2, SVal.noneV]]) =
    Except.ok [(2, [[1, 0]])] := by
  rfl

example :
    dereference_surfaces (some ⟨some [SVal.id 0],
      [[("type", PyData.str "WallSurface"), ("children", PyData.list []),
        ("parent", PyData.int 0)]]⟩) =
    Except.error (PyErr.typeError missingValuesMsg) := by
  rfl

example :
    get_surface_boundaries (DVal.list [DVal.list [DVal.vtx 10, DVal.vtx 11], DVal.vtx 12])
      (some [[0, 1], [1]]) = Except.ok [DVal.vtx (11 : Int), DVal.vtx 12] := by
  rfl

example :
    get_cityobjects ⟨[⟨"a", "Building", []⟩, ⟨"b", "Road", []⟩, ⟨"c", "BUILDING", []⟩]⟩
      (FilterArg.pyStr "Building") =
    Except.ok (CityObjSeq.genSeq
      ⟨[⟨"a", "Building", []⟩, ⟨"b", "Road", []⟩, ⟨"c", "BUILDING", []⟩], "building"⟩) := by
  rfl

example :
    (genRun ⟨[⟨"a", "Building", []⟩, ⟨"b", "Road", []⟩, ⟨"c", "BUILDING", []⟩],
      "building"⟩).1 = [⟨"a", "Building", []⟩, ⟨"c", "BUILDING", []⟩] := by
  rfl

example :
    genNext ⟨[⟨"b", "Road", []⟩, ⟨"c", "BUILDING", []⟩], "building"⟩ =
    some (⟨"c", "BUILDING", []⟩, ⟨[], "building"⟩) := by
  rfl

example :
    get_cityobjects ⟨[]⟩ (FilterArg.pyInt 3) =
    Except.error (PyErr.typeError "type parameter must be a string") := by
  rfl

end Cjio
